import Mathlib

/-!
Verification of the Mont Vallon Investments landing page core
(`src/App.jsx`): the `FlyCamera` per-frame orbit/zoom/drift motion,
the `MontVallonModel` bounding-box focus computation, and the
speed-slider interface.  JavaScript numbers are modelled as real
numbers.
-/

namespace MontVallon

noncomputable section

/-- A 3-component vector (three.js `Vector3` the way `App.jsx` uses it:
a triple of numeric coordinates). -/
@[ext]
structure Vec3 where
  x : ℝ
  y : ℝ
  z : ℝ

/-- Componentwise order on vectors, used to express axis-aligned boxes. -/
def Vec3.le (a b : Vec3) : Prop := a.x ≤ b.x ∧ a.y ≤ b.y ∧ a.z ≤ b.z

/-! ## FlyCamera (`App.jsx` lines 89-115)

The `useFrame` callback keeps one accumulator `t.current` and derives the
pose from it each frame. -/

/-- `t.current += delta * speed` (App.jsx line 99). -/
def advance (t delta speed : ℝ) : ℝ := t + delta * speed

/-- `const orbitAngle = t.current * 0.3` (App.jsx line 101). -/
def orbitAngle (t : ℝ) : ℝ := t * 0.3

/-- `const zoomFactor = Math.min(t.current * 1.2, 6)` (App.jsx line 102). -/
def zoomFactor (t : ℝ) : ℝ := min (t * 1.2) 6

/-- `const radius = Math.max(20, 26 - zoomFactor * 1.5)` (App.jsx line 103). -/
def radius (t : ℝ) : ℝ := max 20 (26 - zoomFactor t * 1.5)

/-- `const height = 12 + Math.sin(t.current * 0.4) * 3` (App.jsx line 104). -/
def height (t : ℝ) : ℝ := 12 + Real.sin (t * 0.4) * 3

/-- `camera.position.set(target[0] + cos(orbitAngle) * radius,
target[1] + height, target[2] + sin(orbitAngle) * radius)`
(App.jsx lines 106-110). -/
def cameraPosition (target : Vec3) (t : ℝ) : Vec3 :=
  { x := target.x + Real.cos (orbitAngle t) * radius t
    y := target.y + height t
    z := target.z + Real.sin (orbitAngle t) * radius t }

/-- `camera.lookAt(target[0], target[1], target[2])` (App.jsx line 111):
the look-at point is the target itself. -/
def cameraLookAt (target : Vec3) : Vec3 := target

/-- The mutable camera object owned by the renderer: position, look-at
point, and field of view. -/
structure Camera where
  position : Vec3
  lookTarget : Vec3
  fov : ℝ

/-- The `useEffect` body (App.jsx lines 93-96): `camera.fov = fov;
camera.updateProjectionMatrix()` — it writes only the projection
parameter. -/
def applyFov (fov : ℝ) (cam : Camera) : Camera := { cam with fov := fov }

/-- One `useFrame` tick (App.jsx lines 98-112): advance the accumulator,
then overwrite the camera position and look-at point.  Returns the new
accumulator together with the updated camera. -/
def flyFrame (target : Vec3) (speed delta t : ℝ) (cam : Camera) : ℝ × Camera :=
  let t' := advance t delta speed
  (t', { cam with position := cameraPosition target t', lookTarget := cameraLookAt target })

/-- The props of `FlyCamera` that the UI mutates live (App.jsx line 89,
164): speed multiplier and field of view. -/
structure CameraParams where
  speed : ℝ
  fov : ℝ

/-- A speed-slider change re-renders `FlyCamera` with a new `speed` prop
(App.jsx line 206); no other prop changes. -/
def setSpeed (s : ℝ) (p : CameraParams) : CameraParams := { p with speed := s }

/-- The live data of a mounted `FlyCamera`: the `t.current` ref, which
survives re-renders, together with the current props. -/
structure FlyCameraState where
  elapsed : ℝ
  params : CameraParams

/-- Changing the speed prop on a mounted `FlyCamera`: the ref is
untouched, only the props change. -/
def setSpeedState (s : ℝ) (st : FlyCameraState) : FlyCameraState :=
  { st with params := setSpeed s st.params }

/-- One frame tick viewed on the component state: only the accumulator
moves (App.jsx line 99). -/
def frameAdvance (delta : ℝ) (st : FlyCameraState) : FlyCameraState :=
  { st with elapsed := advance st.elapsed delta st.params.speed }

/-! ## MontVallonModel bounds (`App.jsx` lines 71-76)

`new Box3().setFromObject(ref.current)` builds the minimal axis-aligned
box over the object's world-space geometry and `box.getCenter(...)`
takes its center.  The object's geometry is modelled as the list of its
world-space points.  three.js represents the empty box by `+Infinity` /
`-Infinity` sentinel corners; the reals have no infinities, so the empty
box is `none` here, and `getCenter`, `expandByPoint` and `isEmpty`
follow the corresponding three.js branches on emptiness. -/

/-- three.js `Box3`: a pair of corners `(min, max)`, or `none` for the
empty box. -/
def Box3 := Option (Vec3 × Vec3)

/-- three.js `Box3.isEmpty()`. -/
def Box3.isEmpty (b : Box3) : Bool := b.isNone

/-- three.js `Box3.expandByPoint`: grow the box to include a point. -/
def Box3.expandByPoint (b : Box3) (p : Vec3) : Box3 :=
  match b with
  | none => some (p, p)
  | some (mn, mx) =>
      some ({ x := min mn.x p.x, y := min mn.y p.y, z := min mn.z p.z },
            { x := max mx.x p.x, y := max mx.y p.y, z := max mx.z p.z })

/-- three.js `Box3.setFromObject`: expand an initially empty box by every
world-space point of the object's geometry. -/
def Box3.setFromObject (points : List Vec3) : Box3 :=
  points.foldl Box3.expandByPoint none

/-- three.js `Box3.getCenter`: the midpoint of the corners, or the zero
vector when the box is empty. -/
def Box3.getCenter (b : Box3) : Vec3 :=
  match b with
  | none => { x := 0, y := 0, z := 0 }
  | some (mn, mx) =>
      { x := (mn.x + mx.x) / 2, y := (mn.y + mx.y) / 2, z := (mn.z + mx.z) / 2 }

/-- three.js `Box3.containsPoint`. -/
def Box3.containsPoint (b : Box3) (p : Vec3) : Prop :=
  match b with
  | none => False
  | some (mn, mx) => Vec3.le mn p ∧ Vec3.le p mx

/-- The `useLayoutEffect` body of `MontVallonModel` (App.jsx lines 73-75):
the focus point published through `onBounds` is the center of the
object's bounding box. -/
def computeFocus (points : List Vec3) : Vec3 :=
  (Box3.setFromObject points).getCenter

/-- The eight corners of the unit cube centered at `(5, 5, 5)`, with
extent `[4, 6]` in each axis. -/
def unitCubeAt5 : List Vec3 :=
  [⟨4, 4, 4⟩, ⟨6, 4, 4⟩, ⟨4, 6, 4⟩, ⟨6, 6, 4⟩,
   ⟨4, 4, 6⟩, ⟨6, 4, 6⟩, ⟨4, 6, 6⟩, ⟨6, 6, 6⟩]

/-! ## Speed slider (`App.jsx` lines 170, 199-207)

`<input type="range" min="0.05" max="0.35" step="0.01" ...>` with
initial state `useState(0.15)`.  A range input only produces values
`min + n * step` that do not exceed `max`. -/

def speedSliderMin : ℝ := 0.05

def speedSliderMax : ℝ := 0.35

def speedSliderStep : ℝ := 0.01

/-- `useState(0.15)` (App.jsx line 170). -/
def initialFlySpeed : ℝ := 0.15

/-- The values an HTML range input can produce: the minimum plus a whole
number of steps, never exceeding the maximum. -/
def sliderValues (mn mx st : ℝ) : Set ℝ :=
  {v | ∃ n : ℕ, v = mn + n * st ∧ v ≤ mx}

/-! ## Claim theorems -/

/-- C1: for every elapsed time `t ≥ 0` and focus point `f`, the per-frame
pose is `position = (f.x + cos (0.3 t) * r, f.y + 12 + 3 sin (0.4 t),
f.z + sin (0.3 t) * r)` with `r = max 20 (26 - 1.5 * min (1.2 t) 6)`, and
`lookAt = f`; in particular at `t = 0` with focus `(0,0,0)` the position
is `(26, 12, 0)` and the look-at point is `(0,0,0)`. -/
theorem camera_pose_formula (t : ℝ) (ht : 0 ≤ t) (f : Vec3) :
    (cameraPosition f t =
        { x := f.x + Real.cos (0.3 * t) * max 20 (26 - 1.5 * min (1.2 * t) 6)
          y := f.y + 12 + 3 * Real.sin (0.4 * t)
          z := f.z + Real.sin (0.3 * t) * max 20 (26 - 1.5 * min (1.2 * t) 6) }
      ∧ cameraLookAt f = f) ∧
    (cameraPosition ⟨0, 0, 0⟩ 0 = ⟨26, 12, 0⟩ ∧ cameraLookAt ⟨0, 0, 0⟩ = ⟨0, 0, 0⟩) := by
  refine ⟨⟨?_, rfl⟩, ?_, rfl⟩
  · unfold cameraPosition orbitAngle radius zoomFactor height
    rw [mul_comm t 0.3, mul_comm t 1.2, mul_comm t 0.4,
      mul_comm (min ((1.2:ℝ) * t) 6) 1.5]
    ext <;> dsimp only <;> ring
  · unfold cameraPosition orbitAngle radius zoomFactor height
    norm_num [Vec3.mk.injEq, min_def, max_def]

/-- Witness for C1 at `t = 0`, `f = (0, 0, 0)`. -/
theorem camera_pose_formula_witness :
    (0:ℝ) ≤ 0 ∧
    ((cameraPosition ⟨0, 0, 0⟩ 0 =
        { x := (0:ℝ) + Real.cos (0.3 * 0) * max 20 (26 - 1.5 * min (1.2 * 0) 6)
          y := (0:ℝ) + 12 + 3 * Real.sin (0.4 * 0)
          z := (0:ℝ) + Real.sin (0.3 * 0) * max 20 (26 - 1.5 * min (1.2 * 0) 6) }
      ∧ cameraLookAt (⟨0, 0, 0⟩ : Vec3) = ⟨0, 0, 0⟩) ∧
    (cameraPosition ⟨0, 0, 0⟩ 0 = ⟨26, 12, 0⟩ ∧ cameraLookAt (⟨0, 0, 0⟩ : Vec3) = ⟨0, 0, 0⟩)) :=
  ⟨le_refl 0, camera_pose_formula 0 (le_refl 0) ⟨0, 0, 0⟩⟩

/-- C3: for every `t ≥ 0` the orbit radius is at least 20, the horizontal
distance from the focus point to the camera position equals the radius
(hence is at least 20), and the camera position never coincides with the
focus point. -/
theorem radius_floor_no_degenerate_lookat (t : ℝ) (ht : 0 ≤ t) (f : Vec3) :
    20 ≤ radius t ∧
    Real.sqrt (((cameraPosition f t).x - f.x) ^ 2 + ((cameraPosition f t).z - f.z) ^ 2)
      = radius t ∧
    cameraPosition f t ≠ f := by
  have hr : 20 ≤ radius t := le_max_left _ _
  have hsq : ((cameraPosition f t).x - f.x) ^ 2 + ((cameraPosition f t).z - f.z) ^ 2
      = radius t ^ 2 := by
    unfold cameraPosition
    dsimp only
    linear_combination (radius t) ^ 2 * Real.sin_sq_add_cos_sq (orbitAngle t)
  refine ⟨hr, ?_, ?_⟩
  · rw [hsq]
    exact Real.sqrt_sq (by linarith)
  · intro heq
    rw [heq] at hsq
    simp only [sub_self, ne_eq, OfNat.ofNat_ne_zero, not_false_eq_true, zero_pow,
      add_zero] at hsq
    nlinarith

/-- Witness for C3 at `t = 0`, `f = (0, 0, 0)`. -/
theorem radius_floor_no_degenerate_lookat_witness :
    (0:ℝ) ≤ 0 ∧
    (20 ≤ radius 0 ∧
      Real.sqrt (((cameraPosition ⟨0, 0, 0⟩ 0).x - (0:ℝ)) ^ 2
          + ((cameraPosition ⟨0, 0, 0⟩ 0).z - (0:ℝ)) ^ 2) = radius 0 ∧
      cameraPosition ⟨0, 0, 0⟩ 0 ≠ ⟨0, 0, 0⟩) :=
  ⟨le_refl 0, radius_floor_no_degenerate_lookat 0 (le_refl 0) ⟨0, 0, 0⟩⟩

/-- C2: when the object's bounding box is empty, the published focus point
is the fixed default `(0, 0, 0)` (never an undefined value), and the
per-frame camera update keeps looking at — and orbiting — that default. -/
theorem empty_bounds_default_focus (pts : List Vec3) (speed delta t : ℝ) (cam : Camera)
    (h : (Box3.setFromObject pts).isEmpty = true) :
    computeFocus pts = ⟨0, 0, 0⟩ ∧
    (flyFrame (computeFocus pts) speed delta t cam).2.lookTarget = ⟨0, 0, 0⟩ ∧
    (flyFrame (computeFocus pts) speed delta t cam).2.position
      = cameraPosition ⟨0, 0, 0⟩ (advance t delta speed) := by
  have hnone : Box3.setFromObject pts = none := by
    unfold Box3.isEmpty at h
    exact Option.isNone_iff_eq_none.mp h
  have hfocus : computeFocus pts = ⟨0, 0, 0⟩ := by
    unfold computeFocus
    rw [hnone]
    rfl
  rw [hfocus]
  exact ⟨rfl, rfl, rfl⟩

/-- Witness for C2 on the empty geometry with `speed = 1`, `delta = 1`,
`t = 0` and an arbitrary concrete camera. -/
theorem empty_bounds_default_focus_witness :
    (Box3.setFromObject []).isEmpty = true ∧
    (computeFocus [] = ⟨0, 0, 0⟩ ∧
      (flyFrame (computeFocus []) 1 1 0 ⟨⟨0, 0, 0⟩, ⟨0, 0, 0⟩, 55⟩).2.lookTarget
        = ⟨0, 0, 0⟩ ∧
      (flyFrame (computeFocus []) 1 1 0 ⟨⟨0, 0, 0⟩, ⟨0, 0, 0⟩, 55⟩).2.position
        = cameraPosition ⟨0, 0, 0⟩ (advance 0 1 1)) :=
  ⟨rfl, empty_bounds_default_focus [] 1 1 0 ⟨⟨0, 0, 0⟩, ⟨0, 0, 0⟩, 55⟩ rfl⟩

theorem Vec3.le_rfl (a : Vec3) : Vec3.le a a := ⟨le_refl _, le_refl _, le_refl _⟩

theorem Vec3.le_trans {a b c : Vec3} (h1 : Vec3.le a b) (h2 : Vec3.le b c) :
    Vec3.le a c :=
  ⟨h1.1.trans h2.1, h1.2.1.trans h2.2.1, h1.2.2.trans h2.2.2⟩

/-- Folding `Box3.expandByPoint` over a list of points, starting from a
nonempty box: the result is a nonempty box whose corners bound the
starting corners, enclose every folded point, and stay inside any box
that encloses both the starting corners and all the points. -/
theorem foldl_expandByPoint_spec (ps : List Vec3) :
    ∀ mn mx : Vec3, ∃ mn' mx',
      List.foldl Box3.expandByPoint (some (mn, mx)) ps = some (mn', mx') ∧
      Vec3.le mn' mn ∧ Vec3.le mx mx' ∧
      (∀ p ∈ ps, Vec3.le mn' p ∧ Vec3.le p mx') ∧
      (∀ a b : Vec3, Vec3.le a mn → Vec3.le mx b →
        (∀ p ∈ ps, Vec3.le a p ∧ Vec3.le p b) → Vec3.le a mn' ∧ Vec3.le mx' b) := by
  induction ps with
  | nil =>
    intro mn mx
    exact ⟨mn, mx, rfl, Vec3.le_rfl mn, Vec3.le_rfl mx, by simp,
      fun a b ha hb _ => ⟨ha, hb⟩⟩
  | cons p rest ih =>
    intro mn mx
    obtain ⟨mn', mx', hfold, hmn, hmx, hencl, hminim⟩ :=
      ih ⟨min mn.x p.x, min mn.y p.y, min mn.z p.z⟩
        ⟨max mx.x p.x, max mx.y p.y, max mx.z p.z⟩
    refine ⟨mn', mx', ?_, ?_, ?_, ?_, ?_⟩
    · exact hfold
    · exact Vec3.le_trans hmn ⟨min_le_left _ _, min_le_left _ _, min_le_left _ _⟩
    · exact Vec3.le_trans ⟨le_max_left _ _, le_max_left _ _, le_max_left _ _⟩ hmx
    · intro q hq
      rcases List.mem_cons.mp hq with hq | hq
      · subst hq
        exact ⟨Vec3.le_trans hmn ⟨min_le_right _ _, min_le_right _ _, min_le_right _ _⟩,
          Vec3.le_trans ⟨le_max_right _ _, le_max_right _ _, le_max_right _ _⟩ hmx⟩
      · exact hencl q hq
    · intro a b ha hb hall
      have hap : Vec3.le a p := (hall p (List.mem_cons_self p rest)).1
      have hpb : Vec3.le p b := (hall p (List.mem_cons_self p rest)).2
      exact hminim a b
        ⟨le_min ha.1 hap.1, le_min ha.2.1 hap.2.1, le_min ha.2.2 hap.2.2⟩
        ⟨max_le hb.1 hpb.1, max_le hb.2.1 hpb.2.1, max_le hb.2.2 hpb.2.2⟩
        (fun q hq => hall q (List.mem_cons_of_mem p hq))

/-- C4: each per-frame advance updates the elapsed accumulator by exactly
`elapsed + deltaTime * speed`, and for every non-negative `deltaTime` and
positive `speed` the accumulator after the advance is at least the
accumulator before it. -/
theorem advance_exact_and_monotone (t d s : ℝ) (hd : 0 ≤ d) (hs : 0 < s) :
    advance t d s = t + d * s ∧ t ≤ advance t d s := by
  refine ⟨rfl, ?_⟩
  have h : 0 ≤ d * s := mul_nonneg hd hs.le
  unfold advance
  linarith

/-- Witness for C4 at `t = 3`, `d = 1`, `s = 2`. -/
theorem advance_exact_and_monotone_witness :
    (0:ℝ) ≤ 1 ∧ (0:ℝ) < 2 ∧
      (advance 3 1 2 = 3 + 1 * 2 ∧ (3:ℝ) ≤ advance 3 1 2) :=
  ⟨by norm_num, by norm_num, advance_exact_and_monotone 3 1 2 (by norm_num) (by norm_num)⟩

/-- C5: for every elapsed time `t ≥ 0` the zoom factor `min (t * 1.2) 6`
never exceeds 6; at `t = 10` the zoom factor is exactly 6 and the radius
is `max 20 (26 - 9) = 20`. -/
theorem zoomFactor_saturates (t : ℝ) (ht : 0 ≤ t) :
    zoomFactor t ≤ 6 ∧ zoomFactor 10 = 6 ∧ radius 10 = 20 := by
  refine ⟨min_le_right _ _, ?_, ?_⟩
  · norm_num [zoomFactor, min_def]
  · norm_num [radius, zoomFactor, min_def, max_def]

/-- Witness for C5 at `t = 0`. -/
theorem zoomFactor_saturates_witness :
    (0:ℝ) ≤ 0 ∧ (zoomFactor 0 ≤ 6 ∧ zoomFactor 10 = 6 ∧ radius 10 = 20) :=
  ⟨le_refl 0, zoomFactor_saturates 0 (le_refl 0)⟩

/-- C7: for every elapsed time `t` the camera height
`12 + sin (t * 0.4) * 3` stays within the closed interval `[9, 15]`. -/
theorem height_in_bounds (t : ℝ) : 9 ≤ height t ∧ height t ≤ 15 := by
  have h1 := Real.neg_one_le_sin (t * 0.4)
  have h2 := Real.sin_le_one (t * 0.4)
  unfold height
  constructor <;> nlinarith

/-- C8: changing the speed prop between two consecutive frame advances
leaves the previously accumulated elapsed value unchanged, and the next
advance adds exactly `deltaTime * newSpeed` to it. -/
theorem speed_change_not_retroactive (e0 d1 s1 s2 d2 f : ℝ) :
    (setSpeedState s2 (frameAdvance d1 ⟨e0, s1, f⟩)).elapsed
        = (frameAdvance d1 ⟨e0, s1, f⟩).elapsed ∧
    (frameAdvance d2 (setSpeedState s2 (frameAdvance d1 ⟨e0, s1, f⟩))).elapsed
        = (frameAdvance d1 ⟨e0, s1, f⟩).elapsed + d2 * s2 :=
  ⟨rfl, rfl⟩

/-- C9: the field of view is written only to the camera's projection
parameter; the per-frame update produces the same position and look-at
point for any two field-of-view values, and the applied fov itself is
preserved by the frame update. -/
theorem fov_independent_pose (fov1 fov2 : ℝ) (target : Vec3) (speed delta t : ℝ)
    (cam : Camera) :
    (flyFrame target speed delta t (applyFov fov1 cam)).2.position
      = (flyFrame target speed delta t (applyFov fov2 cam)).2.position ∧
    (flyFrame target speed delta t (applyFov fov1 cam)).2.lookTarget
      = (flyFrame target speed delta t (applyFov fov2 cam)).2.lookTarget ∧
    (flyFrame target speed delta t (applyFov fov1 cam)).2.fov = fov1 :=
  ⟨rfl, rfl, rfl⟩

/-- C10: every value the speed slider can produce lies in
`[0.05, 0.35]` and is strictly positive; the initial speed `0.15` is
itself a slider value; consequently for any positive frame delta the
elapsed accumulator strictly increases. -/
theorem slider_speed_always_positive (v e d : ℝ)
    (hv : v ∈ sliderValues speedSliderMin speedSliderMax speedSliderStep)
    (hd : 0 < d) :
    (speedSliderMin ≤ v ∧ v ≤ speedSliderMax ∧ 0 < v) ∧
    initialFlySpeed ∈ sliderValues speedSliderMin speedSliderMax speedSliderStep ∧
    e < advance e d v := by
  obtain ⟨n, hvn, hle⟩ := hv
  have hn : (0:ℝ) ≤ (n:ℝ) := Nat.cast_nonneg n
  have hmin : speedSliderMin ≤ v := by
    rw [hvn]; unfold speedSliderMin speedSliderStep; nlinarith
  have hpos : 0 < v := by
    have : (0:ℝ) < speedSliderMin := by norm_num [speedSliderMin]
    linarith
  refine ⟨⟨hmin, hle, hpos⟩, ?_, ?_⟩
  · exact ⟨10, by norm_num [initialFlySpeed, speedSliderMin, speedSliderStep],
      by norm_num [initialFlySpeed, speedSliderMax]⟩
  · unfold advance
    nlinarith

/-- Witness for C10 at `v = 0.15` (ten steps up from the minimum),
`e = 0`, `d = 1`. -/
theorem slider_speed_always_positive_witness :
    ((0.15:ℝ) ∈ sliderValues speedSliderMin speedSliderMax speedSliderStep
        ∧ (0:ℝ) < 1) ∧
    ((speedSliderMin ≤ 0.15 ∧ (0.15:ℝ) ≤ speedSliderMax ∧ (0:ℝ) < 0.15) ∧
      initialFlySpeed ∈ sliderValues speedSliderMin speedSliderMax speedSliderStep ∧
      (0:ℝ) < advance 0 1 0.15) :=
  ⟨⟨⟨10, by norm_num [speedSliderMin, speedSliderStep],
        by norm_num [speedSliderMax]⟩, one_pos⟩,
    slider_speed_always_positive 0.15 0 1
      ⟨10, by norm_num [speedSliderMin, speedSliderStep],
        by norm_num [speedSliderMax]⟩ one_pos⟩

/-- C6: the bounds computation returns the geometric center of the minimal
axis-aligned box enclosing the object's world-space points: the computed
box contains every point, its corners are bounded by those of any other
enclosing box, and the published focus is the corner midpoint; on the
unit cube centered at `(5, 5, 5)` the focus is `(5, 5, 5)`. -/
theorem computeFocus_center_of_minimal_box (pts : List Vec3) (h : pts ≠ []) :
    (∃ mn mx, Box3.setFromObject pts = some (mn, mx) ∧
      (∀ p ∈ pts, (Box3.setFromObject pts).containsPoint p) ∧
      (∀ a b : Vec3, (∀ p ∈ pts, Box3.containsPoint (some (a, b)) p) →
        Vec3.le a mn ∧ Vec3.le mx b) ∧
      computeFocus pts = ⟨(mn.x + mx.x) / 2, (mn.y + mx.y) / 2, (mn.z + mx.z) / 2⟩) ∧
    computeFocus unitCubeAt5 = ⟨5, 5, 5⟩ := by
  constructor
  · match pts, h with
    | p :: rest, _ =>
      obtain ⟨mn', mx', hfold, hmn, hmx, hencl, hminim⟩ :=
        foldl_expandByPoint_spec rest p p
      have hset : Box3.setFromObject (p :: rest) = some (mn', mx') := hfold
      refine ⟨mn', mx', hset, ?_, ?_, ?_⟩
      · intro q hq
        rw [hset]
        rcases List.mem_cons.mp hq with hq | hq
        · subst hq
          exact ⟨hmn, hmx⟩
        · exact hencl q hq
      · intro a b hab
        exact hminim a b (hab p (List.mem_cons_self p rest)).1
          (hab p (List.mem_cons_self p rest)).2
          (fun q hq => (hab q (List.mem_cons_of_mem p hq)))
      · unfold computeFocus
        rw [hset]
        rfl
  · norm_num [computeFocus, unitCubeAt5, Box3.setFromObject, Box3.expandByPoint,
      Box3.getCenter, Vec3.mk.injEq, min_def, max_def]

/-- Witness for C6 on the unit cube centered at `(5, 5, 5)`. -/
theorem computeFocus_center_of_minimal_box_witness :
    unitCubeAt5 ≠ [] ∧
    ((∃ mn mx, Box3.setFromObject unitCubeAt5 = some (mn, mx) ∧
      (∀ p ∈ unitCubeAt5, (Box3.setFromObject unitCubeAt5).containsPoint p) ∧
      (∀ a b : Vec3, (∀ p ∈ unitCubeAt5, Box3.containsPoint (some (a, b)) p) →
        Vec3.le a mn ∧ Vec3.le mx b) ∧
      computeFocus unitCubeAt5
        = ⟨(mn.x + mx.x) / 2, (mn.y + mx.y) / 2, (mn.z + mx.z) / 2⟩) ∧
    computeFocus unitCubeAt5 = ⟨5, 5, 5⟩) :=
  ⟨by simp [unitCubeAt5],
    computeFocus_center_of_minimal_box unitCubeAt5 (by simp [unitCubeAt5])⟩

end

end MontVallon
